import Mathlib

/-!
Verification of the Hivemind multi-provider deliberation engine.

This file gives a shallow embedding, in Lean 4, of the parts of the
Hivemind repository that the specification's claims are about:

* the error classifier `categorizeError` and the SSRF guard
  `validateBaseUrl` / `isPrivateIP` (packages/core/src/providers/base.ts);
* the prompt builders and the defensive analysis parser `parseAnalysis`
  (the core consensus module);
* the retry driver `retryWithBackoff` and the deliberation orchestrator
  `hivemindTool` (packages/mcp/src/tools/hivemind.ts).

Strings are modelled as Lean `String`s (sequences of Unicode scalar
values, matching JavaScript strings for the inputs considered here),
JSON numbers as rationals, and the JavaScript regular-expression tests
of the source as executable character-list scanners.  Network calls
(`provider.chat` after its surrounding `retryWithBackoff`) are modelled
as oracle functions supplied as explicit parameters: the orchestrator
is deterministic given those outcomes.
-/

namespace Hivemind

/-! ## Character and string scanning utilities

These model the JavaScript regular-expression tests used by
`categorizeError`.  All tests there run on `error.message.toLowerCase()`
and use only three regex shapes: a plain substring, a word-bounded
number (`\b429\b`), and two literals separated by an optional single
character (`rate.?limit`). -/

/-- JavaScript regex word character: `[A-Za-z0-9_]`. -/
def isWordChar (c : Char) : Bool :=
  (('a' ≤ c && c ≤ 'z') || ('A' ≤ c && c ≤ 'Z') || ('0' ≤ c && c ≤ '9') || c = '_')

/-- Does the pattern `pat` occur as a contiguous sublist of `s`?
Models a plain-substring regex test such as `/unauthorized/`. -/
def containsSub (pat : List Char) (s : List Char) : Bool :=
  match s with
  | [] => pat.isPrefixOf ([] : List Char)
  | _ :: rest => pat.isPrefixOf s || containsSub pat rest

/-- String version of `containsSub`. -/
def strContains (s pat : String) : Bool :=
  containsSub pat.toList s.toList

/-- A boundary is acceptable for `\b` next to a word character of the
pattern when the adjacent text character is absent or not a word
character. -/
def boundaryOk (c : Option Char) : Bool :=
  match c with
  | none => true
  | some c => !isWordChar c

/-- Helper for `wordBounded`: scan `s`, remembering the previous
character, looking for an occurrence of `pat` flanked by non-word
characters (or the ends of the string). -/
def wordBoundedAux (pat : List Char) (prev : Option Char) (s : List Char) : Bool :=
  match s with
  | [] => false
  | c :: rest =>
    (pat.isPrefixOf s && boundaryOk prev && boundaryOk ((s.drop pat.length).head?))
      || wordBoundedAux pat (some c) rest

/-- Models a word-bounded regex test such as `/\b401\b/` on the message:
`pat` occurs in `s` with no word character immediately before or after. -/
def wordBounded (s pat : String) : Bool :=
  wordBoundedAux pat.toList none s.toList

/-- Helper for `containsOptSep`: at each position, try to match
`a` immediately followed by `b`, or `a`, one arbitrary character, then
`b`. -/
def containsOptSepAux (a b : List Char) (s : List Char) : Bool :=
  match s with
  | [] => a.isPrefixOf ([] : List Char) && b.isPrefixOf ([] : List Char)
  | _ :: rest =>
    (a.isPrefixOf s &&
      (b.isPrefixOf (s.drop a.length) ||
        (match s.drop a.length with
         | [] => false
         | _ :: t => b.isPrefixOf t)))
      || containsOptSepAux a b rest

/-- Models a regex test of the shape `/rate.?limit/`: the literal `a`,
then at most one arbitrary character, then the literal `b`. -/
def containsOptSep (s a b : String) : Bool :=
  containsOptSepAux a.toList b.toList s.toList

/-- JavaScript `String.prototype.toLowerCase`, restricted to the simple
one-to-one mapping (sufficient for ASCII error messages). -/
def jsToLower (s : String) : String :=
  String.mk (s.toList.map Char.toLower)

/-- JavaScript `s.startsWith(p)`. -/
def strStartsWith (s p : String) : Bool :=
  p.toList.isPrefixOf s.toList

/-- JavaScript `s.endsWith(p)`. -/
def strEndsWith (s p : String) : Bool :=
  p.toList.isSuffixOf s.toList

/-- Helper for `splitOnChar`: accumulate the current segment
(reversed) while scanning. -/
def splitOnCharAux (sep : Char) : List Char → List Char → List String
  | [], acc => [String.mk acc.reverse]
  | c :: rest, acc =>
    if c = sep then String.mk acc.reverse :: splitOnCharAux sep rest []
    else splitOnCharAux sep rest (c :: acc)

/-- JavaScript `s.split(sep)` for a single-character separator. -/
def splitOnChar (sep : Char) (s : String) : List String :=
  splitOnCharAux sep s.toList []

/-! ## Error classifier (packages/core/src/providers/base.ts, `categorizeError`) -/

/-- The error categories of the classifier. -/
inductive ErrorCategory where
  | auth
  | rate_limit
  | server
  | network
  | client
  | unknown
deriving DecidableEq, Repr

/-- Result of `categorizeError`: a category and a retryable flag. -/
structure CategorizedError where
  category : ErrorCategory
  retryable : Bool
deriving DecidableEq, Repr

/-- Row 1 of the classifier: `/\b401\b/ || /unauthorized/i`. -/
def patAuth401 (m : String) : Bool :=
  wordBounded m "401" || strContains m "unauthorized"

/-- Row 2 of the classifier: `/\b403\b/ || /forbidden/i`. -/
def patAuth403 (m : String) : Bool :=
  wordBounded m "403" || strContains m "forbidden"

/-- Row 3 of the classifier: `/\b429\b/ || /rate.?limit/i || /too many requests/i`. -/
def patRateLimit (m : String) : Bool :=
  wordBounded m "429" || containsOptSep m "rate" "limit" || strContains m "too many requests"

/-- Row 4 of the classifier:
`/\b(500|502|503|504)\b/ || /internal.?server/i || /service.?unavailable/i`. -/
def patServer (m : String) : Bool :=
  wordBounded m "500" || wordBounded m "502" || wordBounded m "503" || wordBounded m "504"
    || containsOptSep m "internal" "server" || containsOptSep m "service" "unavailable"

/-- Row 5 of the classifier: `/\b400\b/ || /bad.?request/i`. -/
def patClient400 (m : String) : Bool :=
  wordBounded m "400" || containsOptSep m "bad" "request"

/-- Row 6 of the classifier: `/\b404\b/ || /not.?found/i`. -/
def patClient404 (m : String) : Bool :=
  wordBounded m "404" || containsOptSep m "not" "found"

/-- Network row A: `/econnrefused|econnreset|etimedout|enetunreach|enotfound/i`. -/
def patNetworkCodes (m : String) : Bool :=
  strContains m "econnrefused" || strContains m "econnreset" || strContains m "etimedout"
    || strContains m "enetunreach" || strContains m "enotfound"

/-- Network row B: `/timeout|aborted|network/i`. -/
def patNetworkWords (m : String) : Bool :=
  strContains m "timeout" || strContains m "aborted" || strContains m "network"

/-- Network row C: `/fetch failed/i`. -/
def patNetworkFetch (m : String) : Bool :=
  strContains m "fetch failed"

/-- The error classifier `categorizeError` of
packages/core/src/providers/base.ts.  The source takes an `Error` and
lowercases `error.message`; this embedding takes the message directly.
The cascade of `if` statements is reproduced in order. -/
def categorizeError (message : String) : CategorizedError :=
  let m := jsToLower message
  if patAuth401 m then ⟨.auth, false⟩
  else if patAuth403 m then ⟨.auth, false⟩
  else if patRateLimit m then ⟨.rate_limit, true⟩
  else if patServer m then ⟨.server, true⟩
  else if patClient400 m then ⟨.client, false⟩
  else if patClient404 m then ⟨.client, false⟩
  else if patNetworkCodes m then ⟨.network, true⟩
  else if patNetworkWords m then ⟨.network, true⟩
  else if patNetworkFetch m then ⟨.network, true⟩
  else ⟨.unknown, false⟩

/-! ## SSRF guard (packages/core/src/providers/base.ts,
`isPrivateIP` / `validateBaseUrl`) -/

/-- The provider union type of packages/core/src/types.ts. -/
inductive Provider where
  | openai
  | anthropic
  | google
deriving DecidableEq, Repr

/-- The provider's name as a string, as it appears in error messages. -/
def Provider.name : Provider → String
  | .openai => "openai"
  | .anthropic => "anthropic"
  | .google => "google"

/-- The allowlist `ALLOWED_DOMAINS` of official API domains. -/
def ALLOWED_DOMAINS : Provider → List String
  | .openai => ["api.openai.com"]
  | .anthropic => ["api.anthropic.com"]
  | .google => ["generativelanguage.googleapis.com"]

/-- JavaScript `parseInt(s, 10)`: optional sign followed by a maximal
run of decimal digits; `none` models `NaN` (no digits). Leading
whitespace never occurs in hostname labels so it is not modelled. -/
def parseIntLeading (s : String) : Option Int :=
  let core (cs : List Char) : Option Nat :=
    let digits := cs.takeWhile Char.isDigit
    if digits.isEmpty then none
    else some (digits.foldl (fun n c => 10 * n + (c.toNat - '0'.toNat)) 0)
  match s.toList with
  | '-' :: rest => (core rest).map (fun n => -(n : Int))
  | '+' :: rest => (core rest).map (fun n => (n : Int))
  | cs => (core cs).map (fun n => (n : Int))

/-- The private/internal address check `isPrivateIP` of
packages/core/src/providers/base.ts, as one disjunction in source
order.  The argument is the already-lowercased hostname, exactly as at
the call site in `validateBaseUrl`. -/
def isPrivateIP (hostname : String) : Bool :=
  hostname = "localhost" || hostname = "127.0.0.1"
  || strStartsWith hostname "10."
  || strStartsWith hostname "192.168."
  || (strStartsWith hostname "172." &&
       (let parts := splitOnChar '.' hostname
        decide (2 ≤ parts.length) &&
          (match parseIntLeading (parts.getD 1 "") with
           | some n => decide (16 ≤ n ∧ n ≤ 31)
           | none => false)))
  || strStartsWith hostname "169.254."
  || strStartsWith hostname "100.64." || strStartsWith hostname "100.65."
  || strStartsWith hostname "100.66." || strStartsWith hostname "100.67."
  || strStartsWith hostname "127."
  || strEndsWith hostname ".local"
  || hostname = "[::1]" || hostname = "::1"
  || strStartsWith hostname "fe80:" || strStartsWith hostname "[fe80:"
  || strStartsWith hostname "fc" || strStartsWith hostname "fd"
  || strStartsWith hostname "[fc" || strStartsWith hostname "[fd"
  || hostname = "0.0.0.0" || hostname = "[::]"

/-- The observable outcome of JavaScript `new URL(baseUrl)`: the
protocol (scheme with trailing colon, e.g. `"https:"`) and the
hostname.  WHATWG URL parsing itself is an external collaborator; the
validator's behaviour is a function of these two components only, so
the parse result is passed in as an oracle (`none` models the
constructor throwing on a malformed URL). -/
structure ParsedUrl where
  protocol : String
  hostname : String
deriving DecidableEq, Repr

/-- The SSRF validator `validateBaseUrl` of
packages/core/src/providers/base.ts.  `Except.error` models a thrown
error; the function's own `Invalid baseUrl…` throws pass through the
final `catch` unchanged (the catch re-raises messages that start with
`Invalid baseUrl`), while a `new URL` failure (`parsed = none`) is
wrapped as `Invalid baseUrl: ${baseUrl}`. -/
def validateBaseUrl (provider : Provider) (baseUrl : String)
    (parsed : Option ParsedUrl) : Except String Unit :=
  match parsed with
  | none => .error ("Invalid baseUrl: " ++ baseUrl)
  | some url =>
    let hostname := jsToLower url.hostname
    if isPrivateIP hostname then
      .error "Invalid baseUrl: private/internal addresses are not allowed"
    else if !(ALLOWED_DOMAINS provider).any
        (fun domain => hostname = domain || strEndsWith hostname ("." ++ domain)) then
      .error ("Invalid baseUrl for " ++ provider.name ++ ": domain \"" ++ hostname
        ++ "\" is not in the allowlist. Allowed domains: "
        ++ String.intercalate ", " (ALLOWED_DOMAINS provider))
    else if url.protocol ≠ "https:" then
      .error "Invalid baseUrl: only HTTPS is allowed"
    else .ok ()

/-! ## JSON values and `JSON.parse`

`parseAnalysis` in the core consensus module feeds the extracted brace
substring to `JSON.parse`.  JSON values are modelled with rational
numbers for JSON numbers; `JSON.parse` is modelled by a fuel-indexed
recursive-descent parser that, like the JavaScript builtin, accepts
exactly one JSON value surrounded by whitespace. -/

/-- An exact JSON number: an integer numerator over a positive
denominator (the parser only ever produces 1 or powers of ten).  Kept
unnormalized so that all arithmetic is kernel-reducible. -/
structure JNum where
  num : Int
  den : Nat
deriving DecidableEq, Repr

/-- Sum of two exact JSON numbers (cross multiplication, no
normalization). -/
def JNum.add (a b : JNum) : JNum :=
  ⟨a.num * (b.den : Int) + b.num * (a.den : Int), a.den * b.den⟩

/-- Negation of an exact JSON number. -/
def JNum.neg (a : JNum) : JNum := ⟨-a.num, a.den⟩

/-- Division by a power of ten (fraction and negative-exponent parts). -/
def JNum.divPow10 (a : JNum) (k : Nat) : JNum := ⟨a.num, a.den * 10 ^ k⟩

/-- Multiplication by a power of ten (positive-exponent part). -/
def JNum.mulPow10 (a : JNum) (k : Nat) : JNum := ⟨a.num * (10 : Int) ^ k, a.den⟩

/-- Semantic equality of exact JSON numbers (valid because all
denominators produced here are positive). -/
def JNum.eqv (a b : JNum) : Prop := a.num * (b.den : Int) = b.num * (a.den : Int)

instance (a b : JNum) : Decidable (JNum.eqv a b) := by
  unfold JNum.eqv; infer_instance

/-- Strict order on exact JSON numbers (valid for positive
denominators). -/
def JNum.gtB (a b : JNum) : Bool := decide (b.num * (a.den : Int) < a.num * (b.den : Int))

/-- A parsed JSON value.  Object member lists keep source order and may
contain duplicate keys; property access returns the last occurrence,
as `JSON.parse` does. -/
inductive Json where
  | null
  | bool (b : Bool)
  | num (q : JNum)
  | str (s : String)
  | arr (elems : List Json)
  | obj (members : List (String × Json))

/-- JSON whitespace skipping (space, tab, line feed, carriage return). -/
def skipWs : List Char → List Char
  | [] => []
  | c :: rest =>
    if c = ' ' || c = '\t' || c = '\n' || c = '\r' then skipWs rest else c :: rest

/-- Value of a hexadecimal digit, for `\u` escapes. -/
def hexVal (c : Char) : Option Nat :=
  if '0' ≤ c ∧ c ≤ '9' then some (c.toNat - '0'.toNat)
  else if 'a' ≤ c ∧ c ≤ 'f' then some (c.toNat - 'a'.toNat + 10)
  else if 'A' ≤ c ∧ c ≤ 'F' then some (c.toNat - 'A'.toNat + 10)
  else none

/-- Parse the remainder of a JSON string literal (the opening quote
already consumed), handling the JSON escape sequences. -/
def parseStringLit : Nat → List Char → List Char → Option (String × List Char)
  | 0, _, _ => none
  | _, [], _ => none
  | fuel + 1, c :: rest, acc =>
    if c = '"' then some (String.mk acc.reverse, rest)
    else if c = '\\' then
      match rest with
      | [] => none
      | e :: rest2 =>
        if e = '"' then parseStringLit fuel rest2 ('"' :: acc)
        else if e = '\\' then parseStringLit fuel rest2 ('\\' :: acc)
        else if e = '/' then parseStringLit fuel rest2 ('/' :: acc)
        else if e = 'b' then parseStringLit fuel rest2 (Char.ofNat 8 :: acc)
        else if e = 'f' then parseStringLit fuel rest2 (Char.ofNat 12 :: acc)
        else if e = 'n' then parseStringLit fuel rest2 ('\n' :: acc)
        else if e = 'r' then parseStringLit fuel rest2 (Char.ofNat 13 :: acc)
        else if e = 't' then parseStringLit fuel rest2 ('\t' :: acc)
        else if e = 'u' then
          match rest2 with
          | h1 :: h2 :: h3 :: h4 :: rest3 =>
            match hexVal h1, hexVal h2, hexVal h3, hexVal h4 with
            | some a, some b, some c3, some d =>
              parseStringLit fuel rest3 (Char.ofNat (((a * 16 + b) * 16 + c3) * 16 + d) :: acc)
            | _, _, _, _ => none
          | _ => none
        else none
    else parseStringLit fuel rest (c :: acc)

/-- Numeric value of a list of decimal digits. -/
def digitsToNat (ds : List Char) : Nat :=
  ds.foldl (fun n c => 10 * n + (c.toNat - '0'.toNat)) 0

/-- Parse a JSON number (sign, integer part without leading zeros,
optional fraction, optional exponent) into an exact number. -/
def parseNumber (cs : List Char) : Option (JNum × List Char) :=
  let (neg, cs1) : Bool × List Char :=
    match cs with
    | '-' :: t => (true, t)
    | _ => (false, cs)
  let intDigits := cs1.takeWhile Char.isDigit
  if intDigits.isEmpty then none
  else if 2 ≤ intDigits.length ∧ intDigits.headI = '0' then none
  else
    let afterInt := cs1.dropWhile Char.isDigit
    let intVal : JNum := ⟨(digitsToNat intDigits : Int), 1⟩
    let fracStep : Option (JNum × List Char) :=
      match afterInt with
      | '.' :: t =>
        let fracDigits := t.takeWhile Char.isDigit
        if fracDigits.isEmpty then none
        else some (intVal.add ⟨(digitsToNat fracDigits : Int), 10 ^ fracDigits.length⟩,
          t.dropWhile Char.isDigit)
      | _ => some (intVal, afterInt)
    match fracStep with
    | none => none
    | some (mantissa, afterFrac) =>
      let expStep : Option (JNum × List Char) :=
        match afterFrac with
        | c :: t =>
          if c = 'e' ∨ c = 'E' then
            let (eneg, t1) : Bool × List Char :=
              match t with
              | '-' :: t2 => (true, t2)
              | '+' :: t2 => (false, t2)
              | _ => (false, t)
            let expDigits := t1.takeWhile Char.isDigit
            if expDigits.isEmpty then none
            else
              let e := digitsToNat expDigits
              some ((if eneg then mantissa.divPow10 e else mantissa.mulPow10 e),
                t1.dropWhile Char.isDigit)
          else some (mantissa, afterFrac)
        | [] => some (mantissa, [])
      match expStep with
      | none => none
      | some (q, rest) => some ((if neg then q.neg else q), rest)

/-- Parsing mode for `parseCore`: a single value, the element list of
an array (after `[`), or the member list of an object (after `{`). -/
inductive PMode where
  | value
  | elems
  | members

/-- Intermediate output of `parseCore` for each mode. -/
inductive POut where
  | val (j : Json)
  | list (xs : List Json)
  | kvs (ms : List (String × Json))

/-- The recursive-descent core of the `JSON.parse` model.  Fuel bounds
the recursion depth; every recursive call strictly decreases it, so the
definition is structural and kernel-reducible. -/
def parseCore : Nat → PMode → List Char → Option (POut × List Char)
  | 0, _, _ => none
  | fuel + 1, .value, cs =>
    let cs := skipWs cs
    match cs with
    | [] => none
    | c :: rest =>
      if c = 'n' then
        if ['u', 'l', 'l'].isPrefixOf rest then some (.val .null, rest.drop 3) else none
      else if c = 't' then
        if ['r', 'u', 'e'].isPrefixOf rest then some (.val (.bool true), rest.drop 3) else none
      else if c = 'f' then
        if ['a', 'l', 's', 'e'].isPrefixOf rest then some (.val (.bool false), rest.drop 4)
        else none
      else if c = '"' then
        match parseStringLit (fuel + 1) rest [] with
        | some (s, r) => some (.val (.str s), r)
        | none => none
      else if c = '[' then
        match skipWs rest with
        | ']' :: t => some (.val (.arr []), t)
        | r =>
          match parseCore fuel .elems r with
          | some (.list xs, r2) => some (.val (.arr xs), r2)
          | _ => none
      else if c = '{' then
        match skipWs rest with
        | '}' :: t => some (.val (.obj []), t)
        | r =>
          match parseCore fuel .members r with
          | some (.kvs ms, r2) => some (.val (.obj ms), r2)
          | _ => none
      else if c.isDigit ∨ c = '-' then
        match parseNumber cs with
        | some (q, r) => some (.val (.num q), r)
        | none => none
      else none
  | fuel + 1, .elems, cs =>
    match parseCore fuel .value cs with
    | some (.val v, r) =>
      (match skipWs r with
       | ',' :: t =>
         (match parseCore fuel .elems t with
          | some (.list xs, r2) => some (.list (v :: xs), r2)
          | _ => none)
       | ']' :: t => some (.list [v], t)
       | _ => none)
    | _ => none
  | fuel + 1, .members, cs =>
    match skipWs cs with
    | '"' :: r =>
      (match parseStringLit (fuel + 1) r [] with
       | some (k, r1) =>
         (match skipWs r1 with
          | ':' :: t =>
            (match parseCore fuel .value t with
             | some (.val v, r2) =>
               (match skipWs r2 with
                | ',' :: t2 =>
                  (match parseCore fuel .members t2 with
                   | some (.kvs ms, r3) => some (.kvs ((k, v) :: ms), r3)
                   | _ => none)
                | '}' :: t2 => some (.kvs [(k, v)], t2)
                | _ => none)
             | _ => none)
          | _ => none)
       | none => none)
    | _ => none

/-- Model of `JSON.parse`: one JSON value, possibly surrounded by
whitespace, with nothing after it; `none` models a thrown
`SyntaxError`. -/
def jsonParse (s : String) : Option Json :=
  let cs := s.toList
  match parseCore (2 * cs.length + 2) .value cs with
  | some (.val j, rest) => if (skipWs rest).isEmpty then some j else none
  | _ => none

/-- JavaScript property access on a parse result: the last member with
the given key when the value is an object, otherwise `undefined`
(modelled as `none`). -/
def jsGet (j : Json) (key : String) : Option Json :=
  match j with
  | .obj kvs => ((kvs.filter (fun kv => kv.1 = key)).getLast?).map (fun kv => kv.2)
  | _ => none

/-- JavaScript `Boolean(x)` on a possibly-absent JSON value. -/
def jsTruthy : Option Json → Bool
  | none => false
  | some .null => false
  | some (.bool b) => b
  | some (.num q) => decide (q.num ≠ 0)
  | some (.str s) => decide (s ≠ "")
  | some (.arr _) => true
  | some (.obj _) => true

/-- JavaScript `String(x)` for the values that can appear in a parsed
analysis array.  Exact for strings (the case the TypeScript types
promise); nested arrays and numbers are approximated, which no theorem
below depends on. -/
def jsDisplay : Json → String
  | .str s => s
  | .bool true => "true"
  | .bool false => "false"
  | .null => "null"
  | .num q => toString q.num ++ "/" ++ toString q.den
  | .arr _ => ""
  | .obj _ => "[object Object]"

/-! ## Consensus data model and defensive analysis parser
(core consensus module) -/

/-- A provider's answer in one round (`ModelResponse` in
packages/core/src/types.ts).  The `ModelId` and `Provider` string-union
types are erased to strings. -/
structure ModelResponse where
  model : String
  provider : String
  content : String
  timestamp : Nat
deriving Repr

/-- The judge's verdict (`ConsensusAnalysis` in
packages/core/src/types.ts).  The TypeScript annotations promise
`string[]` for the two arrays, but `parseAnalysis` returns whatever
array `JSON.parse` produced, so the element type here is `Json`. -/
structure ConsensusAnalysis where
  hasConsensus : Bool
  agreements : List Json
  divergences : List Json
  confidence : JNum

/-- The canonical parse-failure analysis returned by `parseAnalysis`
when no JSON object can be recovered from the judge's text. -/
def parseFailureDefault : ConsensusAnalysis :=
  ⟨false, [], [.str "Unable to parse analysis"], ⟨0, 1⟩⟩

/-- The candidate substring selected by the regex match
`response.match(/\{[\s\S]*\}/)`: the regex is greedy, so the match runs
from the first `\x7b` that has some `\x7d` after it, to the last `\x7d`
of the whole string (not to the first balanced closing brace). -/
def extractJsonCandidate (s : String) : Option String :=
  let cs := s.toList
  match cs.findIdx? (fun c => c = '\x7b') with
  | none => none
  | some i =>
    let tail := cs.drop i
    match tail.reverse.findIdx? (fun c => c = '\x7d') with
    | none => none
    | some k => some (String.mk (tail.take (tail.length - k)))

/-- The defensive analysis parser `parseAnalysis` of the core consensus
module: extract the greedy brace substring, `JSON.parse` it, coerce the
fields (`Boolean`, `Array.isArray`, `typeof number`) filling defaults
`false` / `[]` / `[]` / `0.5`; on any failure return
`parseFailureDefault`. -/
def parseAnalysis (response : String) : ConsensusAnalysis :=
  match extractJsonCandidate response with
  | some candidate =>
    match jsonParse candidate with
    | some parsed =>
      { hasConsensus := jsTruthy (jsGet parsed "hasConsensus")
        agreements :=
          match jsGet parsed "agreements" with
          | some (.arr xs) => xs
          | _ => []
        divergences :=
          match jsGet parsed "divergences" with
          | some (.arr xs) => xs
          | _ => []
        confidence :=
          match jsGet parsed "confidence" with
          | some (.num q) => q
          | _ => ⟨5, 10⟩ }  -- the source's literal 0.5
    | none => parseFailureDefault
  | none => parseFailureDefault

/-! ## Prompt builders (core consensus module)

JavaScript `template.replace(pattern, repl)` with a string pattern
replaces the first occurrence only; it is modelled by `replaceFirst`.
(The builtin also expands `$`-sequences in the replacement; none of the
placeholders substituted below is involved in any property about the
rendered text, so that expansion is not modelled.) -/

/-- Replace the first occurrence of `pat` in the character list, if
any. -/
def replaceFirstAux (pat repl : List Char) : List Char → Option (List Char)
  | [] => if pat.isEmpty then some repl else none
  | c :: rest =>
    if pat.isPrefixOf (c :: rest) then some (repl ++ (c :: rest).drop pat.length)
    else (replaceFirstAux pat repl rest).map (fun r => c :: r)

/-- JavaScript `s.replace(pat, repl)` with a string pattern: first
occurrence only; `s` unchanged when `pat` does not occur. -/
def replaceFirst (s pat repl : String) : String :=
  match replaceFirstAux pat.toList repl.toList s.toList with
  | some r => String.mk r
  | none => s

/-- The `ANALYSIS_PROMPT` template of the core consensus module. -/
def ANALYSIS_PROMPT : String :=
  "You are an impartial analyst. Analyze the following responses from different AI models to the same question.\n\nQuestion: \x7bquestion\x7d\n\nResponses:\n\x7bresponses\x7d\n\nAnalyze these responses and output ONLY valid JSON (no markdown, no explanation):\n\x7b\n  \"hasConsensus\": boolean,\n  \"agreements\": [\"point1\", \"point2\"],\n  \"divergences\": [\"divergence1\", \"divergence2\"],\n  \"confidence\": number between 0 and 1\n\x7d\n\nhasConsensus is true if all models substantially agree on the core answer."

/-- The `REFINEMENT_PROMPT` template of the core consensus module. -/
def REFINEMENT_PROMPT : String :=
  "You previously answered a question, but there are divergences with other AI models.\n\nOriginal question: \x7bquestion\x7d\n\nYour previous answer: \x7bpreviousAnswer\x7d\n\nOther models' perspectives:\n\x7botherAnswers\x7d\n\nKey divergences identified: \x7bdivergences\x7d\n\nPlease reconsider your answer taking into account the other perspectives. If you believe your original answer was correct, explain why. If you see merit in the other perspectives, incorporate them. Provide your refined answer."

/-- The `SYNTHESIS_PROMPT` template of the core consensus module. -/
def SYNTHESIS_PROMPT : String :=
  "You are synthesizing a consensus from multiple AI model responses.\n\nOriginal question: \x7bquestion\x7d\n\nFinal responses from models:\n\x7bresponses\x7d\n\nAgreements: \x7bagreements\x7d\nDivergences: \x7bdivergences\x7d\nRounds of deliberation: \x7brounds\x7d\n\nCreate a final, comprehensive answer that:\n1. Synthesizes the agreed-upon points\n2. Addresses any remaining divergences fairly\n3. Presents the most accurate and helpful response\n\nProvide the synthesized consensus answer directly, without preamble."

/-- The filter of `formatResponsesForPrompt`:
`r.model !== excludeModel` (an absent `excludeModel` keeps every
response). -/
def keepResponse (r : ModelResponse) (excludeModel : Option String) : Bool :=
  match excludeModel with
  | some x => decide (r.model ≠ x)
  | none => true

/-- The labelled entry list rendered by `formatResponsesForPrompt`:
the kept responses, each shown as `[model]: content`. -/
def formatEntries (responses : List ModelResponse) (excludeModel : Option String) :
    List String :=
  (responses.filter (fun r => keepResponse r excludeModel)).map
    (fun r => "[" ++ r.model ++ "]: " ++ r.content)

/-- `formatResponsesForPrompt` of the core consensus module: the entry
list joined with blank lines. -/
def formatResponsesForPrompt (responses : List ModelResponse)
    (excludeModel : Option String) : String :=
  String.intercalate "\n\n" (formatEntries responses excludeModel)

/-- `buildAnalysisPrompt` of the core consensus module. -/
def buildAnalysisPrompt (question : String) (responses : List ModelResponse) : String :=
  replaceFirst
    (replaceFirst ANALYSIS_PROMPT "\x7bquestion\x7d" question)
    "\x7bresponses\x7d" (formatResponsesForPrompt responses none)

/-- `buildRefinementPrompt` of the core consensus module: the other
models' answers exclude `currentModel`, and the divergence list is
joined with `"\n- "` (JavaScript `Array.prototype.join` stringifies the
elements). -/
def buildRefinementPrompt (question previousAnswer : String)
    (responses : List ModelResponse) (divergences : List Json)
    (currentModel : String) : String :=
  replaceFirst
    (replaceFirst
      (replaceFirst
        (replaceFirst REFINEMENT_PROMPT "\x7bquestion\x7d" question)
        "\x7bpreviousAnswer\x7d" previousAnswer)
      "\x7botherAnswers\x7d" (formatResponsesForPrompt responses (some currentModel)))
    "\x7bdivergences\x7d" (String.intercalate "\n- " (divergences.map jsDisplay))

/-- `buildSynthesisPrompt` of the core consensus module. -/
def buildSynthesisPrompt (question : String) (responses : List ModelResponse)
    (analysis : ConsensusAnalysis) (rounds : Nat) : String :=
  replaceFirst
    (replaceFirst
      (replaceFirst
        (replaceFirst
          (replaceFirst SYNTHESIS_PROMPT "\x7bquestion\x7d" question)
          "\x7bresponses\x7d" (formatResponsesForPrompt responses none))
        "\x7bagreements\x7d" (String.intercalate "\n- " (analysis.agreements.map jsDisplay)))
      "\x7bdivergences\x7d" (String.intercalate "\n- " (analysis.divergences.map jsDisplay)))
    "\x7brounds\x7d" (toString rounds)

/-! ## Retry driver (packages/mcp/src/tools/hivemind.ts,
`retryWithBackoff`)

The wrapped asynchronous call is modelled as an oracle
`fn : Nat → Except String α` giving the outcome of each attempt
(1-based); `Except.error` carries the thrown error's message.  Besides
the final outcome, the model records how many attempts were made and
which backoff delays (in milliseconds) were slept, so that the claims
about attempt counts and the delay schedule can be stated. -/

/-- `MAX_RETRIES` of packages/mcp/src/tools/hivemind.ts. -/
def MAX_RETRIES : Nat := 3

/-- `BASE_DELAY_MS` of packages/mcp/src/tools/hivemind.ts. -/
def BASE_DELAY_MS : Nat := 1000

/-- Outcome of a `retryWithBackoff` run: the returned value or the
rethrown error, the total number of attempts made, and the list of
backoff delays slept between attempts. -/
structure RetryTrace (α : Type) where
  result : Except String α
  attempts : Nat
  delays : List Nat
deriving Repr

/-- The attempt loop of `retryWithBackoff`: `attempt` is the 1-based
attempt counter and `remaining = MAX_RETRIES - attempt`; the source
rethrows when `attempt === MAX_RETRIES || !retryable`, otherwise
sleeps `BASE_DELAY_MS * 2^(attempt-1)` and retries. -/
def retryAux (fn : Nat → Except String α) : Nat → Nat → RetryTrace α
  | attempt, 0 =>
    match fn attempt with
    | .ok v => ⟨.ok v, attempt, []⟩
    | .error e => ⟨.error e, attempt, []⟩
  | attempt, remaining + 1 =>
    match fn attempt with
    | .ok v => ⟨.ok v, attempt, []⟩
    | .error e =>
      if (categorizeError e).retryable then
        let t := retryAux fn (attempt + 1) remaining
        ⟨t.result, t.attempts, BASE_DELAY_MS * 2 ^ (attempt - 1) :: t.delays⟩
      else ⟨.error e, attempt, []⟩

/-- `retryWithBackoff` of packages/mcp/src/tools/hivemind.ts (the
`providerName` argument only feeds a log line and is omitted). -/
def retryWithBackoff (fn : Nat → Except String α) : RetryTrace α :=
  retryAux fn 1 (MAX_RETRIES - 1)

/-! ## Deliberation orchestrator (packages/mcp/src/tools/hivemind.ts,
`hivemindTool`)

Every provider chat call in the source goes through `retryWithBackoff`
and `Promise.allSettled` preserves the order of the provider list, so
the whole function is deterministic given, for every call site, the
per-attempt outcome of the underlying `chat` call.  Those outcomes form
the oracle `OrchestratorEnv`.  Besides the source's return value the
model returns a trace of the chat calls that were issued (kind,
provider, prompt), which is how the claims about which prompts are ever
sent are stated.  Config/settings plumbing (`getConfig`, `getSettings`,
`validateModelId` fallback to `DEFAULT_MODELS`) is abstracted into the
provider list and the `modelOf` map; `trackUsage` and `Date.now()`
timestamps (fixed to 0) have no effect on control flow. -/

/-- One entry of the `errors` array collected after round 1
(provider, message, category). -/
structure ErrorRecord where
  provider : String
  message : String
  category : ErrorCategory
deriving DecidableEq, Repr

/-- One entry of the result's `responses` array. -/
structure RoundResponse where
  provider : String
  model : String
  content : String
  round : Nat
deriving DecidableEq, Repr

/-- The shape of `HivemindToolResult` in
packages/mcp/src/tools/hivemind.ts: consensus text, final analysis,
round count, per-round responses, and the optional orchestrator note.
The interface has no field for the per-provider errors collected after
round 1. -/
structure HivemindToolResult where
  consensus : String
  analysis : ConsensusAnalysis
  rounds : Nat
  responses : List RoundResponse
  orchestratorNote : Option String

/-- Which call site of `provider.chat` issued a request. -/
inductive CallKind where
  | initialQuery
  | analysisQuery
  | refineQuery
  | synthesisQuery
deriving DecidableEq, Repr

/-- A record of one chat request issued by the orchestrator. -/
structure CallRecord where
  kind : CallKind
  provider : String
  prompt : String
deriving DecidableEq, Repr

/-- Per-attempt outcomes of the underlying provider calls, one field
per call site in the source.  `chatAnalyze` is indexed by how many
analysis calls have already been made; `chatRefine` by the (1-based)
round being refined; the last index is always the 1-based retry
attempt. -/
structure OrchestratorEnv where
  chatInitial : String → Nat → Except String String
  chatAnalyze : Nat → Nat → Except String String
  chatRefine : Nat → String → Nat → Except String String
  chatSynth : Nat → Except String String

/-- The key presence part of the MCP config, used to build the provider
list. -/
structure ApiKeysCfg where
  openai : Bool
  google : Bool
  anthropic : Bool
deriving DecidableEq, Repr

/-- The provider-list construction of `hivemindTool` (Anthropic is
included only outside Claude Code mode). -/
def buildProviders (cfg : ApiKeysCfg) (claudeCodeMode : Bool) : List String :=
  (if cfg.openai then ["openai"] else [])
    ++ (if cfg.google then ["google"] else [])
    ++ (if cfg.anthropic && !claudeCodeMode then ["anthropic"] else [])

/-- The initial message: optional context block followed by the
question. -/
def initialMessage (question : String) (context : Option String) : String :=
  (match context with
   | some c => "Context:\n" ++ c ++ "\n\n"
   | none => "") ++ "Question: " ++ question

/-- Round-1 outcomes per provider, in provider order: the settled
result of `retryWithBackoff(() => provider.chat(...))` for each
configured provider. -/
def round1Outcomes (providers : List String) (env : OrchestratorEnv) :
    List (String × Except String String) :=
  providers.map (fun name => (name, (retryWithBackoff (env.chatInitial name)).result))

/-- The successful round-1 responses, as pushed into
`currentResponses`. -/
def round1Successes (providers : List String) (modelOf : String → String)
    (env : OrchestratorEnv) : List ModelResponse :=
  (round1Outcomes providers env).filterMap
    (fun nr =>
      match nr.2 with
      | .ok content => some ⟨modelOf nr.1, nr.1, content, 0⟩
      | .error _ => none)

/-- The `errors` array collected after round 1: one record per provider
whose call ultimately failed, with the failure's classified category.
These records are used by `hivemindTool` only to build the
all-providers-failed message; they are not part of
`HivemindToolResult`. -/
def round1Errors (providers : List String) (env : OrchestratorEnv) : List ErrorRecord :=
  (round1Outcomes providers env).filterMap
    (fun nr =>
      match nr.2 with
      | .ok _ => none
      | .error e => some ⟨nr.1, e, (categorizeError e).category⟩)

/-- The aggregated message thrown when every provider fails in
round 1. -/
def allFailedMessage (errors : List ErrorRecord) : String :=
  "All providers failed.\n\nErrors:\n"
    ++ String.intercalate "\n" (errors.map (fun e => "  • " ++ e.provider ++ ": " ++ e.message))

/-- The guard of the refinement `while` loop:
`!analysis.hasConsensus && round < maxRounds && analysis.divergences.length > 0`. -/
def continueDeliberation (analysis : ConsensusAnalysis) (round maxRounds : Nat) : Bool :=
  !analysis.hasConsensus && decide (round < maxRounds) && !analysis.divergences.isEmpty

/-- The orchestrator state carried through the refinement loop. -/
structure LoopState where
  round : Nat
  currentResponses : List ModelResponse
  allResponses : List RoundResponse
  analysis : ConsensusAnalysis
  analyzeCalls : Nat
  log : List CallRecord

/-- One refinement round's settled outcomes, in provider order, for the
providers present in the current response set. -/
def refineOutcomes (providers : List String) (env : OrchestratorEnv)
    (current : List ModelResponse) (round : Nat) :
    List (String × Except String String) :=
  (providers.filter (fun p => current.any (fun r => r.provider = p))).map
    (fun name => (name, (retryWithBackoff (env.chatRefine round name)).result))

/-- The refinement `while` loop of `hivemindTool` (source lines
212–276), as a fuel-indexed recursion: the guard requires
`round < maxRounds` and every iteration increments `round`, so any
`fuel ≥ maxRounds` makes the model exact. -/
def refinementLoop (question : String) (providers : List String)
    (modelOf : String → String) (env : OrchestratorEnv) (analyzerName : String)
    (maxRounds : Nat) : Nat → LoopState → Except String LoopState
  | 0, st => .ok st
  | fuel + 1, st =>
    if continueDeliberation st.analysis st.round maxRounds then
      let round := st.round + 1
      let outcomes := refineOutcomes providers env st.currentResponses round
      let refineLog : List CallRecord := outcomes.map
        (fun nr =>
          let previousAnswer :=
            match st.currentResponses.find? (fun r => r.provider = nr.1) with
            | some r => r.content
            | none => ""
          ⟨.refineQuery, nr.1,
            buildRefinementPrompt question previousAnswer st.currentResponses
              st.analysis.divergences (modelOf nr.1)⟩)
      let newResponses : List ModelResponse := outcomes.filterMap
        (fun nr =>
          match nr.2 with
          | .ok content => some ⟨modelOf nr.1, nr.1, content, 0⟩
          | .error _ => none)
      let allResponses := st.allResponses ++ newResponses.map
        (fun r => (⟨r.provider, r.model, r.content, round⟩ : RoundResponse))
      if newResponses.isEmpty then
        refinementLoop question providers modelOf env analyzerName maxRounds fuel
          { st with round, allResponses, log := st.log ++ refineLog }
      else
        let reanalysisPrompt := buildAnalysisPrompt question newResponses
        match (retryWithBackoff (env.chatAnalyze st.analyzeCalls)).result with
        | .error e => .error e
        | .ok reanalysisResponse =>
          refinementLoop question providers modelOf env analyzerName maxRounds fuel
            { round
              currentResponses := newResponses
              allResponses
              analysis := parseAnalysis reanalysisResponse
              analyzeCalls := st.analyzeCalls + 1
              log := st.log ++ refineLog
                ++ [⟨.analysisQuery, analyzerName, reanalysisPrompt⟩] }
    else .ok st

/-- The orchestrator note added to the result in Claude Code mode. -/
def orchestratorNoteText : String :=
  "You (Claude) are the orchestrator. Add your own perspective based on the same context, "
    ++ "note where you agree or disagree with the consensus, and provide the final answer "
    ++ "to the user."

/-- The chat-call records of the round-1 fan-out. -/
def initialLog (question : String) (context : Option String) (providers : List String) :
    List CallRecord :=
  providers.map (fun name => ⟨.initialQuery, name, initialMessage question context⟩)

/-- The orchestrator state entering the refinement loop: round 1, the
round-1 successes, and the first parsed analysis. -/
def initialState (question : String) (context : Option String) (providers : List String)
    (modelOf : String → String) (env : OrchestratorEnv) (analyzerName : String)
    (analysisResponse : String) : LoopState :=
  { round := 1
    currentResponses := round1Successes providers modelOf env
    allResponses := (round1Successes providers modelOf env).map
      (fun r => (⟨r.provider, r.model, r.content, 1⟩ : RoundResponse))
    analysis := parseAnalysis analysisResponse
    analyzeCalls := 1
    log := initialLog question context providers
      ++ [⟨.analysisQuery, analyzerName,
            buildAnalysisPrompt question (round1Successes providers modelOf env)⟩] }

/-- The synthesis step and result assembly after the refinement loop
settles. -/
def finishRun (question : String) (analyzerName : String) (claudeCodeMode : Bool)
    (env : OrchestratorEnv) (st : LoopState) :
    Except String (HivemindToolResult × List CallRecord) :=
  match (retryWithBackoff env.chatSynth).result with
  | .error e => .error e
  | .ok consensus =>
    .ok ({ consensus
           analysis := st.analysis
           rounds := st.round
           responses := st.allResponses
           orchestratorNote := if claudeCodeMode then some orchestratorNoteText else none },
      st.log ++ [⟨.synthesisQuery, analyzerName,
        buildSynthesisPrompt question st.currentResponses st.analysis st.round⟩])

/-- The orchestrator `hivemindTool` over an explicit provider list:
round-1 fan-out, all-failed error, first consensus analysis, refinement
loop, synthesis, and result assembly.  Returns the source's result
paired with the trace of chat requests issued. -/
def hivemindRun (question : String) (context : Option String) (maxRounds : Nat)
    (providers : List String) (modelOf : String → String) (claudeCodeMode : Bool)
    (env : OrchestratorEnv) : Except String (HivemindToolResult × List CallRecord) :=
  if providers.isEmpty then
    .error "No providers available. Configure at least OpenAI or Google API key."
  else if (round1Successes providers modelOf env).isEmpty then
    .error (allFailedMessage (round1Errors providers env))
  else
    -- The source's non-null assertion on `providers.find(...)`:
    -- guaranteed to succeed because the successes are nonempty.
    match providers.find? (fun p =>
        (round1Successes providers modelOf env).any (fun r => r.provider = p)) with
    | none => .error "unreachable: no analyzer provider"
    | some analyzerName =>
      match (retryWithBackoff (env.chatAnalyze 0)).result with
      | .error e => .error e
      | .ok analysisResponse =>
        match refinementLoop question providers modelOf env analyzerName maxRounds
            maxRounds
            (initialState question context providers modelOf env analyzerName
              analysisResponse) with
        | .error e => .error e
        | .ok st => finishRun question analyzerName claudeCodeMode env st

/-- `hivemindTool` with the provider list built from the configured
keys and Claude Code mode, as in the source. -/
def hivemindTool (cfg : ApiKeysCfg) (claudeCodeMode : Bool) (question : String)
    (context : Option String) (maxRounds : Nat) (modelOf : String → String)
    (env : OrchestratorEnv) : Except String (HivemindToolResult × List CallRecord) :=
  hivemindRun question context maxRounds (buildProviders cfg claudeCodeMode) modelOf
    claudeCodeMode env

/-! ## Spec-side comparison definitions

Two claims describe the code with a different algorithm than the
source implements.  To state those divergences, the following
definitions follow the specification's words (not the source); each is
clearly named `spec…` and is used only to compare against the
source-derived definitions above. -/

/-- Spec §4.4 reading of the extraction step: scan a brace substring
keeping a nesting depth, stopping at the brace that balances the first
opening brace. -/
def specScanBalanced : List Char → Nat → List Char → Option (List Char)
  | [], _, _ => none
  | c :: rest, depth, acc =>
    if c = '\x7b' then specScanBalanced rest (depth + 1) (c :: acc)
    else if c = '\x7d' then
      if depth = 1 then some (c :: acc).reverse
      else specScanBalanced rest (depth - 1) (c :: acc)
    else specScanBalanced rest depth (c :: acc)

/-- Spec §4.4: "extracts the first balanced `\x7b...\x7d` substring". -/
def specFirstBalanced (s : String) : Option String :=
  match (s.toList.dropWhile (fun c => c ≠ '\x7b')) with
  | [] => none
  | cs => (specScanBalanced cs 0 []).map String.mk

/-- `parseAnalysis` as the spec words it: identical to the source's
parser except that the candidate substring is the first balanced brace
substring rather than the greedy regex match. -/
def specParseAnalysis (response : String) : ConsensusAnalysis :=
  match specFirstBalanced response with
  | some candidate =>
    match jsonParse candidate with
    | some parsed =>
      { hasConsensus := jsTruthy (jsGet parsed "hasConsensus")
        agreements :=
          match jsGet parsed "agreements" with
          | some (.arr xs) => xs
          | _ => []
        divergences :=
          match jsGet parsed "divergences" with
          | some (.arr xs) => xs
          | _ => []
        confidence :=
          match jsGet parsed "confidence" with
          | some (.num q) => q
          | _ => ⟨5, 10⟩ }
    | none => parseFailureDefault
  | none => parseFailureDefault

/-- The §4.2 classification table as the spec words it: each row is a
set of plain substrings of the lowercased message, checked in table
order (network-row vocabulary read generously, so that a message
matching "none of the table's patterns" under this definition matches
none under any reasonable reading). -/
def specTableCategorize (message : String) : CategorizedError :=
  let m := jsToLower message
  if strContains m "401" || strContains m "403" || strContains m "unauthorized"
      || strContains m "forbidden" then ⟨.auth, false⟩
  else if strContains m "429" || strContains m "rate limit"
      || strContains m "too many requests" then ⟨.rate_limit, true⟩
  else if strContains m "500" || strContains m "502" || strContains m "503"
      || strContains m "504" || strContains m "internal server"
      || strContains m "unavailable" then ⟨.server, true⟩
  else if strContains m "400" || strContains m "bad request" then ⟨.client, false⟩
  else if strContains m "404" || strContains m "not found" then ⟨.client, false⟩
  else if strContains m "refused" || strContains m "reset" || strContains m "timeout"
      || strContains m "unreach" || strContains m "dns" || strContains m "econn"
      || strContains m "enotfound" || strContains m "fetch failed" then ⟨.network, true⟩
  else ⟨.unknown, false⟩

/-! ## Concrete deliberation scenarios

Oracle environments used to evaluate the orchestrator at specific
inputs. -/

/-- A judge verdict declaring consensus. -/
def judgeConsensusText : String :=
  "\x7b\"hasConsensus\":true,\"agreements\":[],\"divergences\":[],\"confidence\":0.9\x7d"

/-- A judge verdict declaring no consensus with one divergence, at
confidence 0.9 (above the spec's high-confidence threshold 0.8). -/
def judgeDivergentText : String :=
  "\x7b\"hasConsensus\":false,\"agreements\":[],\"divergences\":[\"d\"],\"confidence\":0.9\x7d"

/-- Scenario: OpenAI answers, Google exhausts its retries on rate
limits, the judge immediately reports consensus. -/
def envPartialFailure : OrchestratorEnv :=
  { chatInitial := fun name _ =>
      if name = "openai" then .ok "OK-ANSWER" else .error "429 rate limit"
    chatAnalyze := fun _ _ => .ok judgeConsensusText
    chatRefine := fun _ _ _ => .error "unused"
    chatSynth := fun _ => .ok "SYNTH" }

/-- Scenario: both providers answer; the first analysis reports no
consensus at confidence 0.9; the re-analysis after one refinement
round reports consensus. -/
def envHighConfidence : OrchestratorEnv :=
  { chatInitial := fun _ _ => .ok "OK-ANSWER"
    chatAnalyze := fun k _ => if k = 0 then .ok judgeDivergentText else .ok judgeConsensusText
    chatRefine := fun _ name _ => .ok ("REFINED-" ++ name)
    chatSynth := fun _ => .ok "SYNTH" }

/-- Scenario: a single provider answers and the judge reports
consensus. -/
def envSingleProvider : OrchestratorEnv :=
  { chatInitial := fun _ _ => .ok "OK-ANSWER"
    chatAnalyze := fun _ _ => .ok judgeConsensusText
    chatRefine := fun _ _ _ => .error "unused"
    chatSynth := fun _ => .ok "SYNTH" }

/-- Scenario: every provider fails round 1 (OpenAI on auth, Google on
rate limits). -/
def envAllFailed : OrchestratorEnv :=
  { chatInitial := fun name _ =>
      if name = "openai" then .error "401 unauthorized" else .error "429 rate limit"
    chatAnalyze := fun _ _ => .ok judgeConsensusText
    chatRefine := fun _ _ _ => .error "unused"
    chatSynth := fun _ => .ok "SYNTH" }

/-! ## Theorems -/

/-- Unfolding of the retry entry point: three attempts total means the
loop starts with two retries remaining. -/
theorem retryWithBackoff_def (fn : Nat → Except String α) :
    retryWithBackoff fn = retryAux fn 1 2 := rfl

/-- The trace of a call that always fails with a retryable error:
three attempts, both backoff delays, the error rethrown unchanged. -/
theorem retry_429 (α : Type) (fn : Nat → Except String α)
    (h : ∀ a, fn a = .error "429 rate limit") :
    retryWithBackoff fn = ⟨.error "429 rate limit", 3, [1000, 2000]⟩ := by
  have hr : (categorizeError "429 rate limit").retryable = true := by decide
  rw [retryWithBackoff_def]
  simp [retryAux, h 1, h 2, h 3, hr, BASE_DELAY_MS]

/-- A non-retryable failure on the first attempt is rethrown at once. -/
theorem retry_first_nonretryable (α : Type) (fn : Nat → Except String α)
    (e : String) (h : fn 1 = .error e) (hr : (categorizeError e).retryable = false) :
    retryWithBackoff fn = ⟨.error e, 1, []⟩ := by
  rw [retryWithBackoff_def]
  simp [retryAux, h, hr]

/-- The retry driver never makes more than `MAX_RETRIES` attempts. -/
theorem retry_attempts_le (α : Type) (fn : Nat → Except String α) :
    (retryWithBackoff fn).attempts ≤ 3 := by
  rw [retryWithBackoff_def]
  rcases h1 : fn 1 with e1 | v1
  · rcases h2 : fn 2 with e2 | v2
    · rcases h3 : fn 3 with e3 | v3
      · by_cases r1 : (categorizeError e1).retryable <;>
          by_cases r2 : (categorizeError e2).retryable <;>
          simp [retryAux, h1, h2, h3, r1, r2]
      · by_cases r1 : (categorizeError e1).retryable <;>
          by_cases r2 : (categorizeError e2).retryable <;>
          simp [retryAux, h1, h2, h3, r1, r2]
    · by_cases r1 : (categorizeError e1).retryable <;> simp [retryAux, h1, h2, r1]
  · simp [retryAux, h1]

/-- The delays slept are exactly the schedule prefix determined by the
attempt count: 1000ms before attempt 2, 2000ms before attempt 3. -/
theorem retry_delays (α : Type) (fn : Nat → Except String α) :
    (retryWithBackoff fn).delays = [1000, 2000].take ((retryWithBackoff fn).attempts - 1) := by
  rw [retryWithBackoff_def]
  rcases h1 : fn 1 with e1 | v1
  · rcases h2 : fn 2 with e2 | v2
    · rcases h3 : fn 3 with e3 | v3
      · by_cases r1 : (categorizeError e1).retryable <;>
          by_cases r2 : (categorizeError e2).retryable <;>
          simp [retryAux, h1, h2, h3, r1, r2, BASE_DELAY_MS]
      · by_cases r1 : (categorizeError e1).retryable <;>
          by_cases r2 : (categorizeError e2).retryable <;>
          simp [retryAux, h1, h2, h3, r1, r2, BASE_DELAY_MS]
    · by_cases r1 : (categorizeError e1).retryable <;>
        simp [retryAux, h1, h2, r1, BASE_DELAY_MS]
  · simp [retryAux, h1]

/-- A failing run rethrows exactly the error of its final attempt (no
wrapping). -/
theorem retry_result_last (α : Type) (fn : Nat → Except String α) (e : String)
    (h : (retryWithBackoff fn).result = .error e) :
    fn (retryWithBackoff fn).attempts = .error e := by
  rw [retryWithBackoff_def] at h ⊢
  rcases h1 : fn 1 with e1 | v1
  · rcases h2 : fn 2 with e2 | v2
    · rcases h3 : fn 3 with e3 | v3
      · by_cases r1 : (categorizeError e1).retryable <;>
          by_cases r2 : (categorizeError e2).retryable <;>
          simp_all [retryAux, h1, h2, h3, r1, r2]
      · by_cases r1 : (categorizeError e1).retryable <;>
          by_cases r2 : (categorizeError e2).retryable <;>
          simp_all [retryAux, h1, h2, h3, r1, r2]
    · by_cases r1 : (categorizeError e1).retryable <;> simp_all [retryAux, h1, h2, r1]
  · simp_all [retryAux, h1]

/-- C4.  Retry policy of `retryWithBackoff`: at most 3 attempts total;
the backoff delays slept are exactly the prefix of 1000ms, 2000ms
(before attempts 2 and 3) determined by the attempt count; a failing
run rethrows the final attempt's error unchanged; a first failure whose
classification is not retryable is rethrown immediately after exactly
one attempt; a call that always raises "429 rate limit" is attempted
exactly 3 times before that error propagates; a call that raises
"401 unauthorized" is attempted exactly once. -/
theorem c4_retry_policy (α : Type) (fn : Nat → Except String α) :
    (retryWithBackoff fn).attempts ≤ 3
    ∧ (retryWithBackoff fn).delays = [1000, 2000].take ((retryWithBackoff fn).attempts - 1)
    ∧ (∀ e, (retryWithBackoff fn).result = .error e →
        fn (retryWithBackoff fn).attempts = .error e)
    ∧ (∀ e, fn 1 = .error e → (categorizeError e).retryable = false →
        retryWithBackoff fn = ⟨.error e, 1, []⟩)
    ∧ ((∀ a, fn a = .error "429 rate limit") →
        retryWithBackoff fn = ⟨.error "429 rate limit", 3, [1000, 2000]⟩)
    ∧ (fn 1 = .error "401 unauthorized" →
        retryWithBackoff fn = ⟨.error "401 unauthorized", 1, []⟩) :=
  ⟨retry_attempts_le α fn, retry_delays α fn,
    fun e h => retry_result_last α fn e h,
    fun e h hr => retry_first_nonretryable α fn e h hr,
    fun h => retry_429 α fn h,
    fun h => retry_first_nonretryable α fn "401 unauthorized" h (by decide)⟩

/-- Witness for C4: the retry policy evaluated on a call that always
raises "429 rate limit" and on one that raises "401 unauthorized". -/
theorem c4_retry_policy_witness :
    retryWithBackoff (fun _ => (.error "429 rate limit" : Except String Nat))
        = ⟨.error "429 rate limit", 3, [1000, 2000]⟩
    ∧ retryWithBackoff (fun _ => (.error "401 unauthorized" : Except String Nat))
        = ⟨.error "401 unauthorized", 1, []⟩ :=
  ⟨(c4_retry_policy Nat (fun _ => .error "429 rate limit")).2.2.2.2.1 (fun _ => rfl),
    (c4_retry_policy Nat (fun _ => .error "401 unauthorized")).2.2.2.2.2 rfl⟩

/-- If the refinement-loop guard holds, fewer rounds than `maxRounds`
have run. -/
theorem continueDeliberation_lt (a : ConsensusAnalysis) (r m : Nat)
    (h : continueDeliberation a r m = true) : r < m := by
  unfold continueDeliberation at h
  simp at h
  exact h.1.2

/-- The refinement loop never leaves the round counter above
`max st.round maxRounds`. -/
theorem refinementLoop_round_le (q : String) (providers : List String)
    (modelOf : String → String) (env : OrchestratorEnv) (an : String) (maxR : Nat) :
    ∀ (fuel : Nat) (st out : LoopState),
      refinementLoop q providers modelOf env an maxR fuel st = .ok out →
      out.round ≤ max st.round maxR := by
  intro fuel
  induction fuel with
  | zero =>
    intro st out h
    simp only [refinementLoop] at h
    cases h
    exact le_max_left _ _
  | succ n ih =>
    intro st out h
    unfold refinementLoop at h
    by_cases hg : continueDeliberation st.analysis st.round maxR = true
    · have hlt : st.round < maxR := continueDeliberation_lt _ _ _ hg
      rw [if_pos hg] at h
      simp only [] at h
      split at h
      · have := ih _ _ h
        simp only [] at this
        omega
      · split at h
        · exact absurd h (by simp)
        · have := ih _ _ h
          simp only [] at this
          omega
    · rw [if_neg hg] at h
      cases h
      exact le_max_left _ _

/-- A state whose guard is false passes through the refinement loop
unchanged, whatever the fuel. -/
theorem refinementLoop_stop (q : String) (providers : List String)
    (modelOf : String → String) (env : OrchestratorEnv) (an : String)
    (maxR : Nat) (st : LoopState)
    (hg : continueDeliberation st.analysis st.round maxR = false) :
    ∀ fuel, refinementLoop q providers modelOf env an maxR fuel st = .ok st := by
  intro fuel
  cases fuel with
  | zero => rfl
  | succ n =>
    unfold refinementLoop
    rw [if_neg (by simp [hg])]

/-- C1.  Partial-failure visibility fails in the code: with OpenAI and
Google configured, OpenAI succeeding and Google ultimately failing
after retries, `hivemindTool` returns a successful result whose
`responses` hold only OpenAI's answer; the per-provider error records
are collected internally (`round1Errors`) but `HivemindToolResult` has
no errors field, so the failed provider is absent from the returned
value. -/
theorem c1_partial_failure_visibility :
    (hivemindTool ⟨true, true, false⟩ true "Q" none 3 (fun p => p ++ "-model")
        envPartialFailure).toOption.map (fun pr => (pr.1.rounds, pr.1.responses))
      = some (1, [⟨"openai", "openai-model", "OK-ANSWER", 1⟩])
    ∧ round1Errors ["openai", "google"] envPartialFailure
      = [⟨"google", "429 rate limit", .rate_limit⟩]
    ∧ buildProviders ⟨true, true, false⟩ true = ["openai", "google"] :=
  ⟨rfl, rfl, rfl⟩

/-- C2 counterexample.  The first analysis parses to no consensus at
confidence 0.9 (above the 0.8 threshold) with a nonempty divergence
list; with `maxRounds = 3` the claim requires deliberation to stop
after round 1, yet the orchestrator performs a refinement round: the
result reports 2 rounds and the trace holds 2 refinement requests. -/
theorem c2_consensus_stop_cex :
    parseAnalysis judgeDivergentText = ⟨false, [], [.str "d"], ⟨9, 10⟩⟩
    ∧ (hivemindRun "Q" none 3 ["openai", "google"] (fun p => p ++ "-model") false
        envHighConfidence).toOption.map
        (fun pr => (pr.1.rounds, (pr.2.filter (fun c => c.kind = .refineQuery)).length))
      = some (2, 2) :=
  ⟨rfl, rfl⟩

/-- C2 (amended).  The orchestrator's stop condition: deliberation
continues exactly when `hasConsensus` is false, `round < maxRounds`
and the divergence list is nonempty; the parsed confidence is not
consulted at all; and whenever the guard is false the loop stops
immediately, leaving the state for synthesis. -/
theorem c2_consensus_stop :
    (∀ (a : ConsensusAnalysis) (round maxRounds : Nat),
        continueDeliberation a round maxRounds = true
          ↔ (a.hasConsensus = false ∧ round < maxRounds ∧ a.divergences ≠ []))
    ∧ (∀ (a : ConsensusAnalysis) (c : JNum) (round maxRounds : Nat),
        continueDeliberation { a with confidence := c } round maxRounds
          = continueDeliberation a round maxRounds)
    ∧ (∀ (q : String) (providers : List String) (modelOf : String → String)
        (env : OrchestratorEnv) (an : String) (maxRounds fuel : Nat) (st : LoopState),
        continueDeliberation st.analysis st.round maxRounds = false →
        refinementLoop q providers modelOf env an maxRounds fuel st = .ok st) := by
  refine ⟨?_, ?_, ?_⟩
  · intro a r m
    unfold continueDeliberation
    simp [and_assoc]
  · intro a c r m
    rfl
  · intro q providers modelOf env an m fuel st hg
    exact refinementLoop_stop q providers modelOf env an m st hg fuel

/-- Witness for C2: the stop condition evaluated on a concrete
divergent analysis at round 1 of 3, the confidence-independence at a
concrete confidence change, and the loop stopping on a concrete
consensus state. -/
theorem c2_consensus_stop_witness :
    continueDeliberation ⟨false, [], [.str "d"], ⟨9, 10⟩⟩ 1 3 = true
    ∧ continueDeliberation { (⟨false, [], [.str "d"], ⟨9, 10⟩⟩ : ConsensusAnalysis) with
        confidence := ⟨1, 2⟩ } 1 3
      = continueDeliberation ⟨false, [], [.str "d"], ⟨9, 10⟩⟩ 1 3
    ∧ refinementLoop "Q" ["openai"] (fun p => p) envSingleProvider "openai" 3 3
        ⟨1, [], [], ⟨true, [], [], ⟨9, 10⟩⟩, 1, []⟩
      = .ok ⟨1, [], [], ⟨true, [], [], ⟨9, 10⟩⟩, 1, []⟩ :=
  ⟨(c2_consensus_stop.1 ⟨false, [], [.str "d"], ⟨9, 10⟩⟩ 1 3).mpr ⟨rfl, by omega, by simp⟩,
    c2_consensus_stop.2.1 ⟨false, [], [.str "d"], ⟨9, 10⟩⟩ ⟨1, 2⟩ 1 3,
    c2_consensus_stop.2.2 "Q" ["openai"] (fun p => p) envSingleProvider "openai" 3 3
      ⟨1, [], [], ⟨true, [], [], ⟨9, 10⟩⟩, 1, []⟩ rfl⟩

/-- C3 counterexample.  With exactly one provider configured and
succeeding, the claim forbids any analysis, refinement or synthesis
prompt; the orchestrator nevertheless issues an analysis request and a
synthesis request, and the returned consensus is the judge's synthesis
output ("SYNTH"), not the provider's own answer ("OK-ANSWER"). -/
theorem c3_single_provider_cex :
    (hivemindTool ⟨true, false, false⟩ true "Q" none 3 (fun p => p ++ "-model")
        envSingleProvider).toOption.map
        (fun pr => (pr.1.rounds, pr.1.consensus, pr.1.responses, pr.2.map (fun c => c.kind)))
      = some (1, "SYNTH", [⟨"openai", "openai-model", "OK-ANSWER", 1⟩],
          [.initialQuery, .analysisQuery, .synthesisQuery]) :=
  rfl

/-- C3 (amended).  With a single configured provider whose round-1 call
succeeds, when the first parsed analysis makes the loop guard false
(consensus, no divergences, or no rounds left) the call completes with
`rounds = 1`, the single response in `responses` — but the orchestrator
still sends one analysis prompt and one synthesis prompt to that
provider, and the consensus returned is the synthesis output, not the
provider's response: there is no single-provider shortcut. -/
theorem c3_single_provider (p q : String) (ctx : Option String) (maxR : Nat)
    (modelOf : String → String) (ccm : Bool) (env : OrchestratorEnv)
    (content atext stext : String)
    (h1 : (retryWithBackoff (env.chatInitial p)).result = .ok content)
    (h2 : (retryWithBackoff (env.chatAnalyze 0)).result = .ok atext)
    (h3 : continueDeliberation (parseAnalysis atext) 1 maxR = false)
    (h4 : (retryWithBackoff env.chatSynth).result = .ok stext) :
    hivemindRun q ctx maxR [p] modelOf ccm env
      = .ok ({ consensus := stext
               analysis := parseAnalysis atext
               rounds := 1
               responses := [⟨p, modelOf p, content, 1⟩]
               orchestratorNote := if ccm then some orchestratorNoteText else none },
          [⟨.initialQuery, p, initialMessage q ctx⟩,
            ⟨.analysisQuery, p, buildAnalysisPrompt q [⟨modelOf p, p, content, 0⟩]⟩,
            ⟨.synthesisQuery, p,
              buildSynthesisPrompt q [⟨modelOf p, p, content, 0⟩] (parseAnalysis atext) 1⟩]) := by
  have hcur : round1Successes [p] modelOf env = [⟨modelOf p, p, content, 0⟩] := by
    simp [round1Successes, round1Outcomes, h1]
  have hst : continueDeliberation
      (initialState q ctx [p] modelOf env p atext).analysis
      (initialState q ctx [p] modelOf env p atext).round maxR = false := by
    simpa [initialState] using h3
  have hfind : List.find? (fun pr =>
      ([⟨modelOf p, p, content, 0⟩] : List ModelResponse).any
        (fun r => r.provider = pr)) [p] = some p := by
    simp [List.find?]
  unfold hivemindRun
  simp only [hcur, List.isEmpty_cons, Bool.false_eq_true, if_false, hfind, h2,
    refinementLoop_stop q [p] modelOf env p maxR
      (initialState q ctx [p] modelOf env p atext) hst maxR]
  unfold finishRun
  rw [h4]
  simp [initialState, initialLog, hcur]

/-- Witness for C3: the amended single-provider behaviour evaluated on
a concrete environment where the judge immediately reports
consensus. -/
theorem c3_single_provider_witness :
    hivemindRun "Q" none 3 ["openai"] (fun p => p ++ "-model") false envSingleProvider
      = .ok ({ consensus := "SYNTH"
               analysis := parseAnalysis judgeConsensusText
               rounds := 1
               responses := [⟨"openai", "openai-model", "OK-ANSWER", 1⟩]
               orchestratorNote := none },
          [⟨.initialQuery, "openai", initialMessage "Q" none⟩,
            ⟨.analysisQuery, "openai",
              buildAnalysisPrompt "Q" [⟨"openai-model", "openai", "OK-ANSWER", 0⟩]⟩,
            ⟨.synthesisQuery, "openai",
              buildSynthesisPrompt "Q" [⟨"openai-model", "openai", "OK-ANSWER", 0⟩]
                (parseAnalysis judgeConsensusText) 1⟩]) := by
  have h := c3_single_provider "openai" "Q" none 3 (fun p => p ++ "-model") false
    envSingleProvider "OK-ANSWER" judgeConsensusText "SYNTH" rfl rfl (by decide) rfl
  simpa using h

/-- C5 counterexample.  The round bound fails for the caller-supplied
value `maxRounds = 0`: round 1 always runs, so the returned `rounds`
is 1, exceeding `maxRounds`. -/
theorem c5_round_bound_cex :
    (hivemindRun "Q" none 0 ["openai"] (fun p => p ++ "-model") false
        envSingleProvider).toOption.map (fun pr => pr.1.rounds) = some 1
    ∧ ¬ (1 : Nat) ≤ 0 :=
  ⟨rfl, by omega⟩

/-- C5 (amended).  Every successful deliberation terminates (the model
is a total function) with `rounds ≤ max 1 maxRounds`; in particular the
claimed bound `rounds ≤ maxRounds` holds whenever `maxRounds ≥ 1`
(default 3). -/
theorem c5_round_bound (q : String) (ctx : Option String) (maxR : Nat)
    (providers : List String) (modelOf : String → String) (ccm : Bool)
    (env : OrchestratorEnv) (r : HivemindToolResult) (log : List CallRecord)
    (h : hivemindRun q ctx maxR providers modelOf ccm env = .ok (r, log)) :
    r.rounds ≤ max 1 maxR := by
  unfold hivemindRun at h
  split at h
  · exact absurd h (by simp)
  · split at h
    · exact absurd h (by simp)
    · split at h
      · exact absurd h (by simp)
      · split at h
        · exact absurd h (by simp)
        · split at h
          · exact absurd h (by simp)
          · rename_i st hloop
            unfold finishRun at h
            split at h
            · exact absurd h (by simp)
            · simp only [Except.ok.injEq, Prod.mk.injEq] at h
              obtain ⟨hr, hlog⟩ := h
              subst hr
              have hb := refinementLoop_round_le q providers modelOf env _ maxR
                maxR _ st hloop
              simp only [initialState] at hb
              simpa using hb

/-- Witness for C5: the bound applied to a concrete successful run with
`maxRounds = 3`. -/
theorem c5_round_bound_witness :
    ({ consensus := "SYNTH"
       analysis := parseAnalysis judgeConsensusText
       rounds := 1
       responses := [⟨"openai", "openai-model", "OK-ANSWER", 1⟩]
       orchestratorNote := none } : HivemindToolResult).rounds ≤ max 1 3 :=
  c5_round_bound "Q" none 3 ["openai"] (fun p => p ++ "-model") false
    envSingleProvider _ _ rfl

/-- C6 counterexample.  On input `{"hasConsensus":true} }` a
first-balanced extraction parses `{"hasConsensus":true}` and reports
consensus, but the source's greedy regex takes the span up to the last
closing brace, `JSON.parse` fails on it, and `parseAnalysis` returns
the canonical parse-failure default. -/
theorem c6_parse_analysis_cex :
    specParseAnalysis "\x7b\"hasConsensus\":true\x7d \x7d" = ⟨true, [], [], ⟨5, 10⟩⟩
    ∧ parseAnalysis "\x7b\"hasConsensus\":true\x7d \x7d" = parseFailureDefault :=
  ⟨rfl, rfl⟩

/-- C6 (amended).  `parseAnalysis` extracts the greedy span from the
first opening brace to the last closing brace of the whole input and
`JSON.parse`s it; on success, present fields are coerced and missing
fields default to false / [] / [] / 0.5; on any extraction or parse
failure — including "no json here" and inputs whose greedy span is
unbalanced — it returns exactly the parse-failure default, never
throwing. -/
theorem c6_parse_analysis :
    parseAnalysis "no json here" = parseFailureDefault
    ∧ parseAnalysis
        "Analysis: \x7b\"hasConsensus\":true,\"agreements\":[\"a\"],\"divergences\":[],\"confidence\":0.9\x7d Done."
      = ⟨true, [.str "a"], [], ⟨9, 10⟩⟩
    ∧ parseAnalysis "\x7b\"hasConsensus\": true\x7d" = ⟨true, [], [], ⟨5, 10⟩⟩
    ∧ extractJsonCandidate "\x7b\"hasConsensus\":true\x7d \x7d"
        = some "\x7b\"hasConsensus\":true\x7d \x7d"
    ∧ (∀ s, extractJsonCandidate s = none → parseAnalysis s = parseFailureDefault)
    ∧ (∀ s c, extractJsonCandidate s = some c → jsonParse c = none →
        parseAnalysis s = parseFailureDefault) := by
  refine ⟨rfl, rfl, rfl, rfl, ?_, ?_⟩
  · intro s h
    unfold parseAnalysis
    rw [h]
  · intro s c h1 h2
    unfold parseAnalysis
    simp only [h1, h2]

/-- Witness for C6: the failure paths applied at concrete inputs (one
with no braces, one whose greedy span is not valid JSON). -/
theorem c6_parse_analysis_witness :
    parseAnalysis "it said yes" = parseFailureDefault
    ∧ parseAnalysis "\x7b\"hasConsensus\":true\x7d trailing \x7d" = parseFailureDefault :=
  ⟨c6_parse_analysis.2.2.2.2.1 "it said yes" rfl,
    c6_parse_analysis.2.2.2.2.2 "\x7b\"hasConsensus\":true\x7d trailing \x7d"
      "\x7b\"hasConsensus\":true\x7d trailing \x7d" rfl rfl⟩

/-- C7.  Total-failure error contents: when every provider fails in
round 1, the thrown message lists each provider with its raw error text
only — it contains neither the classified categories nor the
category-keyed suggestion list ("Verify API key", …) that the claim
and the repository's own hivemind tests require. -/
theorem c7_total_failure_message :
    hivemindTool ⟨true, true, false⟩ true "Q" none 3 (fun p => p ++ "-model") envAllFailed
      = .error "All providers failed.\n\nErrors:\n  • openai: 401 unauthorized\n  • google: 429 rate limit"
    ∧ strContains
        "All providers failed.\n\nErrors:\n  • openai: 401 unauthorized\n  • google: 429 rate limit"
        "Verify API key" = false
    ∧ strContains
        "All providers failed.\n\nErrors:\n  • openai: 401 unauthorized\n  • google: 429 rate limit"
        "rate_limit" = false :=
  ⟨rfl, by decide, by decide⟩

/-- C8 counterexample.  The §4.2 table classifies any message
containing "unavailable" as a retryable server error, but the code's
regex requires "service unavailable", so the bare message
"unavailable" falls through to unknown; conversely "aborted" matches
no table pattern yet the code classifies it as a retryable network
error rather than unknown. -/
theorem c8_error_classifier_cex :
    specTableCategorize "unavailable" = ⟨.server, true⟩
    ∧ categorizeError "unavailable" = ⟨.unknown, false⟩
    ∧ specTableCategorize "aborted" = ⟨.unknown, false⟩
    ∧ categorizeError "aborted" = ⟨.network, true⟩ := by
  decide

/-- C8 (amended).  On the code's own patterns the table holds: a
message matching the server row (word-bounded 500/502/503/504,
"internal server", or "service unavailable", each with at most one
separator character) and no earlier row is classified
`{server, retryable}`; and a message matching none of the code's
patterns — which extend the table's network row with "timeout",
"aborted" and "network" — is classified `{unknown, non-retryable}`. -/
theorem c8_error_classifier :
    (∀ m, patServer (jsToLower m) = true → patAuth401 (jsToLower m) = false →
      patAuth403 (jsToLower m) = false → patRateLimit (jsToLower m) = false →
      categorizeError m = ⟨.server, true⟩)
    ∧ (∀ m, patAuth401 (jsToLower m) = false → patAuth403 (jsToLower m) = false →
      patRateLimit (jsToLower m) = false → patServer (jsToLower m) = false →
      patClient400 (jsToLower m) = false → patClient404 (jsToLower m) = false →
      patNetworkCodes (jsToLower m) = false → patNetworkWords (jsToLower m) = false →
      patNetworkFetch (jsToLower m) = false →
      categorizeError m = ⟨.unknown, false⟩) := by
  constructor
  · intro m h4 h1 h2 h3
    simp [categorizeError, h1, h2, h3, h4]
  · intro m h1 h2 h3 h4 h5 h6 h7 h8 h9
    simp [categorizeError, h1, h2, h3, h4, h5, h6, h7, h8, h9]

/-- Witness for C8: the amended classifier rows evaluated at "503
service unavailable" (server row) and "mystery failure" (no row). -/
theorem c8_error_classifier_witness :
    categorizeError "503 service unavailable" = ⟨.server, true⟩
    ∧ categorizeError "mystery failure" = ⟨.unknown, false⟩ :=
  ⟨c8_error_classifier.1 "503 service unavailable" (by decide) (by decide) (by decide)
      (by decide),
    c8_error_classifier.2 "mystery failure" (by decide) (by decide) (by decide) (by decide)
      (by decide) (by decide) (by decide) (by decide) (by decide)⟩

/-- C9.  Refinement self-exclusion: every entry rendered in the
"other answers" section used by `buildRefinementPrompt` for the model
id `x` comes from a response whose model is not `x` — a provider's own
prior answer is filtered out by identity before rendering. -/
theorem c9_self_exclusion (responses : List ModelResponse) (x e : String)
    (h : e ∈ formatEntries responses (some x)) :
    ∃ r ∈ responses, r.model ≠ x ∧ e = "[" ++ r.model ++ "]: " ++ r.content := by
  simp only [formatEntries, List.mem_map, List.mem_filter] at h
  obtain ⟨r, ⟨hr, hk⟩, he⟩ := h
  refine ⟨r, hr, ?_, he.symm⟩
  simpa [keepResponse] using hk

/-- Witness for C9: the self-exclusion property applied to a concrete
two-model response set with gemini excluded. -/
theorem c9_self_exclusion_witness :
    ("[gpt-4o]: GPT answer" ∈ formatEntries
      [⟨"gpt-4o", "openai", "GPT answer", 0⟩, ⟨"gemini-2.0-flash", "google", "Gemini answer", 0⟩]
      (some "gemini-2.0-flash"))
    ∧ ∃ r ∈ ([⟨"gpt-4o", "openai", "GPT answer", 0⟩,
        ⟨"gemini-2.0-flash", "google", "Gemini answer", 0⟩] : List ModelResponse),
        r.model ≠ "gemini-2.0-flash"
          ∧ "[gpt-4o]: GPT answer" = "[" ++ r.model ++ "]: " ++ r.content := by
  have hm : "[gpt-4o]: GPT answer" ∈ formatEntries
      [⟨"gpt-4o", "openai", "GPT answer", 0⟩, ⟨"gemini-2.0-flash", "google", "Gemini answer", 0⟩]
      (some "gemini-2.0-flash") := by decide
  exact ⟨hm, c9_self_exclusion _ _ _ hm⟩

/-- C10.  Base-URL allowlisting: a validation that returns normally
implies the parsed URL is HTTPS with a hostname that is not a
private/internal address and equals (or is a subdomain of) the
provider's official API domain; and the validator throws on every
private/internal hostname, every non-HTTPS protocol, every
non-allowlisted hostname, and every string `new URL` rejects. -/
theorem c10_base_url_allowlist :
    (∀ (p : Provider) (baseUrl : String) (u : ParsedUrl),
        validateBaseUrl p baseUrl (some u) = .ok () →
        u.protocol = "https:" ∧ isPrivateIP (jsToLower u.hostname) = false
          ∧ ∃ d ∈ ALLOWED_DOMAINS p,
              jsToLower u.hostname = d ∨ strEndsWith (jsToLower u.hostname) ("." ++ d))
    ∧ (∀ (p : Provider) (baseUrl : String) (u : ParsedUrl),
        isPrivateIP (jsToLower u.hostname) = true →
        ∃ msg, validateBaseUrl p baseUrl (some u) = .error msg)
    ∧ (∀ (p : Provider) (baseUrl : String) (u : ParsedUrl), u.protocol ≠ "https:" →
        ∃ msg, validateBaseUrl p baseUrl (some u) = .error msg)
    ∧ (∀ (p : Provider) (baseUrl : String) (u : ParsedUrl),
        (∀ d ∈ ALLOWED_DOMAINS p,
          jsToLower u.hostname ≠ d ∧ ¬ strEndsWith (jsToLower u.hostname) ("." ++ d) = true) →
        ∃ msg, validateBaseUrl p baseUrl (some u) = .error msg)
    ∧ (∀ (p : Provider) (baseUrl : String),
        ∃ msg, validateBaseUrl p baseUrl none = .error msg) := by
  refine ⟨?_, ?_, ?_, ?_, ?_⟩
  · intro p b u h
    unfold validateBaseUrl at h
    by_cases h1 : isPrivateIP (jsToLower u.hostname) = true
    · simp [h1] at h
    · simp only [h1, Bool.not_eq_true] at h ⊢
      refine ⟨?_, by simp [h1], ?_⟩ <;>
      · by_cases h2 : (ALLOWED_DOMAINS p).any
            (fun domain => jsToLower u.hostname = domain
              || strEndsWith (jsToLower u.hostname) ("." ++ domain)) = true
        · simp [Bool.not_eq_true] at h1
          simp [h1, h2] at h
          first
            | (by_cases h3 : u.protocol = "https:"
               · exact h3
               · simp [h3] at h)
            | (simp only [List.any_eq_true] at h2
               obtain ⟨d, hd, hor⟩ := h2
               exact ⟨d, hd, by simpa using hor⟩)
        · simp [Bool.not_eq_true] at h1
          simp [h1, h2] at h
  · intro p b u h1
    simp [validateBaseUrl, h1]
  · intro p b u h3
    unfold validateBaseUrl
    by_cases h1 : isPrivateIP (jsToLower u.hostname) = true
    · simp [h1]
    · by_cases h2 : (ALLOWED_DOMAINS p).any
          (fun domain => jsToLower u.hostname = domain
            || strEndsWith (jsToLower u.hostname) ("." ++ domain)) = true
      · simp [Bool.not_eq_true] at h1
        simp [h1, h2, h3]
      · simp [Bool.not_eq_true] at h1
        simp [h1, h2]
  · intro p b u hall
    unfold validateBaseUrl
    by_cases h1 : isPrivateIP (jsToLower u.hostname) = true
    · simp [h1]
    · have h2 : (ALLOWED_DOMAINS p).any
          (fun domain => jsToLower u.hostname = domain
            || strEndsWith (jsToLower u.hostname) ("." ++ domain)) = false := by
        simp only [List.any_eq_false]
        intro d hd
        simp only [Bool.or_eq_true, not_or]
        obtain ⟨hne, hns⟩ := hall d hd
        exact ⟨by simpa using hne, by simp [hns]⟩
      simp [Bool.not_eq_true] at h1
      simp [h1, h2]
  · intro p b
    simp [validateBaseUrl]

/-- Witness for C10: the validator's guarantees applied at a compliant
OpenAI URL, a localhost URL, a plain-HTTP URL, a non-allowlisted
domain, and an unparseable string. -/
theorem c10_base_url_allowlist_witness :
    ((ParsedUrl.mk "https:" "api.openai.com").protocol = "https:"
      ∧ isPrivateIP (jsToLower (ParsedUrl.mk "https:" "api.openai.com").hostname) = false
      ∧ ∃ d ∈ ALLOWED_DOMAINS Provider.openai,
          jsToLower (ParsedUrl.mk "https:" "api.openai.com").hostname = d
            ∨ strEndsWith (jsToLower (ParsedUrl.mk "https:" "api.openai.com").hostname)
                ("." ++ d))
    ∧ (∃ msg, validateBaseUrl .openai "https://localhost"
        (some ⟨"https:", "localhost"⟩) = .error msg)
    ∧ (∃ msg, validateBaseUrl .openai "http://api.openai.com"
        (some ⟨"http:", "api.openai.com"⟩) = .error msg)
    ∧ (∃ msg, validateBaseUrl .google "https://evil.example.com"
        (some ⟨"https:", "evil.example.com"⟩) = .error msg)
    ∧ (∃ msg, validateBaseUrl .anthropic "not a url" none = .error msg) :=
  ⟨c10_base_url_allowlist.1 .openai "https://api.openai.com/v1"
      ⟨"https:", "api.openai.com"⟩ (by rfl),
    c10_base_url_allowlist.2.1 .openai "https://localhost" ⟨"https:", "localhost"⟩
      (by decide),
    c10_base_url_allowlist.2.2.1 .openai "http://api.openai.com"
      ⟨"http:", "api.openai.com"⟩ (by decide),
    c10_base_url_allowlist.2.2.2.1 .google "https://evil.example.com"
      ⟨"https:", "evil.example.com"⟩ (by decide),
    c10_base_url_allowlist.2.2.2.2 .anthropic "not a url"⟩

end Hivemind
